import Mathlib

/-
Verification development for the simple-bdb embedded key-value store
(`src/index.ts`).  The store keeps a JSON-like document — a mapping from
root keys to structured values — in memory, supports dotted/bracketed
path access through the lodash helpers get/set/has/unset, and
(optionally) persists the whole document to a single msgpack-encoded
file after each mutation.

The shallow embedding below models:
  * `Value`    — the universe of storable values (null, booleans,
                 numbers, strings, sequences, string-keyed mappings);
  * the lodash path machinery (`stringToPath`, `baseGet`, `baseSet`,
    `basePathHas`, `baseUnset`) as functional updates;
  * `Database` — the class state: the in-memory document, the
    `autoSave` flag, and an abstract view of the persisted file
    (`FileState`), where `FileState.stored d` stands for a file holding
    a valid encoding of document `d`.
-/

namespace SimpleBDB

/-- A JavaScript value storable in the database, as constrained by the
msgpack codec: null, booleans, numbers, strings, arrays and plain
string-keyed objects (kept as ordered association lists, mirroring JS
property-insertion order).  Numbers are modelled as integers; no claim
exercises fractional values. -/
inductive Value where
  | null : Value
  | boolean : Bool → Value
  | num : Int → Value
  | str : String → Value
  | arr : List Value → Value
  | obj : List (String × Value) → Value

/-- The document: the top-level JS object held in `this.data`. -/
abbrev Doc := List (String × Value)

/-- JS property read `o[k]` on a plain object: `none` models
`undefined`. -/
def assocLookup : List (String × Value) → String → Option Value
  | [], _ => none
  | (k', v) :: rest, k => if k' = k then some v else assocLookup rest k

/-- JS property write `o[k] = v`: overwrite in place if the key exists
(keeping its position), otherwise append (insertion order). -/
def assocInsert : List (String × Value) → String → Value → List (String × Value)
  | [], k, v => [(k, v)]
  | (k', v') :: rest, k, v =>
    if k' = k then (k, v) :: rest else (k', v') :: assocInsert rest k v

/-- JS `delete o[k]` on a plain object. -/
def assocErase : List (String × Value) → String → List (String × Value)
  | [], _ => []
  | (k', v') :: rest, k =>
    if k' = k then rest else (k', v') :: assocErase rest k

/-- JS truthiness of a property read: `undefined`, `null`, `false`,
`0` and `""` are falsy; every other storable value is truthy. -/
def truthy : Option Value → Bool
  | none => false
  | some Value.null => false
  | some (Value.boolean b) => b
  | some (Value.num n) => n != 0
  | some (Value.str s) => s != ""
  | some (Value.arr _) => true
  | some (Value.obj _) => true

/-- JS `key.includes(".")`. -/
def hasDot (s : String) : Bool := s.data.contains '.'

/-- Helper for `splitDots`: scan characters, cutting at every dot. -/
def splitCharAux : List Char → List Char → List String
  | [], acc => [String.mk acc.reverse]
  | c :: rest, acc =>
    if c = '.' then String.mk acc.reverse :: splitCharAux rest []
    else splitCharAux rest (c :: acc)

/-- JS `key.split(".")`. -/
def splitDots (s : String) : List String := splitCharAux s.data []

/-- JS `keys.join(".")`. -/
def joinDots : List String → String
  | [] => ""
  | [s] => s
  | s :: rest => s ++ "." ++ joinDots rest

/-- The root key: `keys.shift()` after splitting on dots. -/
def mainKeyOf (key : String) : String := (splitDots key).headD ""

/-- The nested path handed to lodash: remaining segments re-joined. -/
def nestedOf (key : String) : String := joinDots (splitDots key).tail

/-- lodash `isIndex` / `reIsUint`: a canonical unsigned decimal
numeral ("0", or a nonzero-leading digit string). -/
def isIndexStr (s : String) : Bool :=
  match s.data with
  | [] => false
  | c :: cs =>
    if c = '0' then cs.isEmpty
    else ('1' ≤ c && c ≤ '9') && cs.all Char.isDigit

/-- Decimal digits to a natural number. -/
def digitsToNat : List Char → Nat → Nat
  | [], acc => acc
  | c :: cs, acc => digitsToNat cs (acc * 10 + (c.toNat - '0'.toNat))

/-- Numeric value of an index key. -/
def strToNat (s : String) : Nat := digitsToNat s.data 0

/-- Helper for `stringToPath`: dots and brackets all cut the path into
keys; a bracketed numeral becomes its own key. -/
def splitPathAux : List Char → List Char → List String
  | [], acc => if acc.isEmpty then [] else [String.mk acc.reverse]
  | c :: rest, acc =>
    if c = '.' || c = '[' || c = ']' then
      (if acc.isEmpty then [] else [String.mk acc.reverse]) ++ splitPathAux rest []
    else splitPathAux rest (c :: acc)

/-- lodash `stringToPath` restricted to well-formed paths: `"b.c"` ↦
`["b", "c"]`, `"b[1]"` ↦ `["b", "1"]`, `"b[1].c"` ↦
`["b", "1", "c"]`. -/
def stringToPath (s : String) : List String := splitPathAux s.data []

/-- lodash `castPath`: a string with no dot and no bracket is a single
key; otherwise it is tokenized by `stringToPath`. -/
def castPath (s : String) : List String :=
  if s.data.contains '.' || s.data.contains '[' then stringToPath s else [s]

/-- lodash `isObject` on storable values: arrays and objects are the
only containers; all other values are primitives. -/
def isContainer : Value → Bool
  | Value.arr _ => true
  | Value.obj _ => true
  | _ => false

/-- One step of lodash path traversal, JS `object[key]`: property
lookup on objects, numeral indexing on arrays, `undefined` on
primitives. -/
def indexStep : Value → String → Option Value
  | Value.obj fs, k => assocLookup fs k
  | Value.arr xs, k => if isIndexStr k then xs.get? (strToNat k) else none
  | _, _ => none

/-- lodash `baseGet`: walk the parsed path, yielding `none`
(undefined) as soon as a step fails. -/
def baseGet : Value → List String → Option Value
  | v, [] => some v
  | v, k :: ks =>
    match indexStep v k with
    | none => none
    | some v' => baseGet v' ks

/-- `lodash.get(v, path)` (before the caller applies its default). -/
def lodashGet (v : Value) (path : String) : Option Value :=
  baseGet v (castPath path)

/-- lodash `baseSet`'s fresh intermediate: an array when the next key
is an index, a plain object otherwise. -/
def freshChild (nextKey : String) : Value :=
  if isIndexStr nextKey then Value.arr [] else Value.obj []

/-- JS array element assignment `xs[i] = x`: in-range replaces;
past-the-end extends (holes read back as null through the codec). -/
def listAssign (xs : List Value) (i : Nat) (x : Value) : List Value :=
  if i < xs.length then xs.set i x
  else xs ++ List.replicate (i - xs.length) Value.null ++ [x]

/-- lodash `baseSet`: descend along the path, replacing non-container
intermediates with fresh containers, and assign the leaf.  A
primitive at the point of assignment is returned unchanged (lodash's
`isObject` guard). -/
def baseSet : Value → List String → Value → Value
  | v, [], _ => v
  | Value.obj fs, [k], x => Value.obj (assocInsert fs k x)
  | Value.arr xs, [k], x =>
    if isIndexStr k then Value.arr (listAssign xs (strToNat k) x)
    else Value.arr xs
  | Value.obj fs, k :: k' :: ks, x =>
    let child :=
      match assocLookup fs k with
      | some c => if isContainer c then c else freshChild k'
      | none => freshChild k'
    Value.obj (assocInsert fs k (baseSet child (k' :: ks) x))
  | Value.arr xs, k :: k' :: ks, x =>
    if isIndexStr k then
      let i := strToNat k
      let child :=
        match xs.get? i with
        | some c => if isContainer c then c else freshChild k'
        | none => freshChild k'
      Value.arr (listAssign xs i (baseSet child (k' :: ks) x))
    else Value.arr xs
  | v, _ :: _, _ => v

/-- `lodash.set(v, path, x)` as a functional update. -/
def lodashSet (v : Value) (path : String) (x : Value) : Value :=
  baseSet v (castPath path) x

/-- lodash `hasPath` with own-property checks: every step of the path
must land on an existing property / in-range index. -/
def basePathHas : Value → List String → Bool
  | _, [] => false
  | v, [k] => (indexStep v k).isSome
  | v, k :: k' :: ks =>
    match indexStep v k with
    | some c => basePathHas c (k' :: ks)
    | none => false

/-- `lodash.has(v, path)`. -/
def lodashHas (v : Value) (path : String) : Bool :=
  basePathHas v (castPath path)

/-- Replace the node found at an (existing) path by a new value —
the functional image of lodash's in-place parent mutation. -/
def updateAt : Value → List String → Value → Value
  | _, [], x => x
  | Value.obj fs, k :: ks, x =>
    match assocLookup fs k with
    | some c => Value.obj (assocInsert fs k (updateAt c ks x))
    | none => Value.obj fs
  | Value.arr xs, k :: ks, x =>
    if isIndexStr k then
      match xs.get? (strToNat k) with
      | some c => Value.arr (xs.set (strToNat k) (updateAt c ks x))
      | none => Value.arr xs
    else Value.arr xs
  | v, _ :: _, _ => v

/-- lodash `baseUnset`: resolve the parent of the leaf; a missing or
null parent reports true without touching anything; otherwise
sloppy-mode JS `delete parent[lastKey]`, which reports true when the
property was absent or was removed, and false — without mutating —
when it is an own non-configurable property: an array's `length`, or a
(boxed) string's `length` and in-range character indices.  Plain
objects in stored data carry only configurable properties, so a plain
object parent always reports true; deleting an in-range array index
leaves a hole (read back as null through the codec); primitive number
and boolean parents box to objects with no own properties, so they
report true. -/
def baseUnset (v : Value) (keys : List String) : Value × Bool :=
  match keys with
  | [] => (v, true)
  | _ :: _ =>
    let parentPath := keys.dropLast
    let lastKey := keys.getLastD ""
    match baseGet v parentPath with
    | none => (v, true)
    | some Value.null => (v, true)
    | some (Value.obj fs) =>
      (updateAt v parentPath (Value.obj (assocErase fs lastKey)), true)
    | some (Value.arr xs) =>
      if lastKey = "length" then (v, false)
      else if isIndexStr lastKey && strToNat lastKey < xs.length then
        (updateAt v parentPath (Value.arr (xs.set (strToNat lastKey) Value.null)), true)
      else (v, true)
    | some (Value.str s) =>
      if lastKey = "length" || (isIndexStr lastKey && strToNat lastKey < s.length) then
        (v, false)
      else (v, true)
    | some _ => (v, true)

/-- `lodash.unset(v, path)`: the updated value and the reported
boolean. -/
def lodashUnset (v : Value) (path : String) : Value × Bool :=
  baseUnset v (castPath path)

/-- Abstract view of the persisted file: absent, zero-length, holding
bytes that fail to decode, or holding a valid encoding of a document
(`stored d` — the codec round-trips, so the decoded document
identifies the contents). -/
inductive FileState where
  | missing : FileState
  | empty : FileState
  | corrupt : FileState
  | stored : Doc → FileState

/-- The `DatabaseOptions` interface of the source: exactly the fields
`filePath?: string` and `autoSave?: boolean` (an omitted field is
`none`). -/
structure DatabaseOptions where
  filePath : Option String := none
  autoSave : Option Bool := none

/-- The `Database` class state: `this.data`, `this.autoSave`, and the
state of the file at `this.filePath`. -/
structure Database where
  data : Doc
  autoSave : Bool
  file : FileState

/-- `save()`: encode `this.data` and overwrite the file. -/
def Database.save (db : Database) : Database :=
  { db with file := FileState.stored db.data }

/-- `load()`, run at construction with `this.data = {}`: an existing
non-empty file is decoded into `this.data` (a decode failure is caught,
resets `this.data` to `{}` and saves); an existing zero-length file is
left alone; a missing file triggers an immediate `save()`. -/
def Database.load (autoSave : Bool) (fs : FileState) : Database :=
  match fs with
  | FileState.missing => { data := [], autoSave := autoSave, file := FileState.stored [] }
  | FileState.empty => { data := [], autoSave := autoSave, file := FileState.empty }
  | FileState.corrupt => { data := [], autoSave := autoSave, file := FileState.stored [] }
  | FileState.stored d => { data := d, autoSave := autoSave, file := FileState.stored d }

/-- The constructor: `autoSave = options.autoSave !== false`, then
`load()` against the current state of the file. -/
def Database.create (opts : DatabaseOptions) (fs : FileState) : Database :=
  Database.load (opts.autoSave != some false) fs

/-- `set(key, value)` (the returned value is always `value` itself, so
only the state transition is modelled): a dotted key splits into root
key and nested path, a falsy root is replaced by a fresh `{}` before
`lodash.set`; a dotless key is a direct root assignment.  Saves when
`autoSave` is on. -/
def Database.setD (db : Database) (key : String) (v : Value) : Database :=
  let d :=
    if hasDot key then
      let root :=
        if truthy (assocLookup db.data (mainKeyOf key)) then
          (assocLookup db.data (mainKeyOf key)).getD (Value.obj [])
        else Value.obj []
      assocInsert db.data (mainKeyOf key) (lodashSet root (nestedOf key) v)
    else assocInsert db.data key v
  let db' := { db with data := d }
  if db.autoSave then db'.save else db'

/-- `get(key, defaultValue)`: a dotted key returns the default when the
root is falsy, otherwise resolves the nested path with `lodash.get`
(undefined falls back to the default); a dotless key is a direct root
read with the same undefined fallback. -/
def Database.getD (db : Database) (key : String) (dflt : Value) : Value :=
  if hasDot key then
    if truthy (assocLookup db.data (mainKeyOf key)) then
      match lodashGet ((assocLookup db.data (mainKeyOf key)).getD Value.null)
          (nestedOf key) with
      | some v => v
      | none => dflt
    else dflt
  else
    match assocLookup db.data key with
    | some v => v
    | none => dflt

/-- `has(key)`: falsy root ⇒ false for dotted keys, else `lodash.has`;
a dotless key checks `!== undefined`. -/
def Database.hasD (db : Database) (key : String) : Bool :=
  if hasDot key then
    if truthy (assocLookup db.data (mainKeyOf key)) then
      lodashHas ((assocLookup db.data (mainKeyOf key)).getD Value.null) (nestedOf key)
    else false
  else (assocLookup db.data key).isSome

/-- `delete(key)`: returns the reported boolean and the new state.
Dotted: falsy root ⇒ `(false, unchanged)`, else `lodash.unset` on the
root's value, then save.  Dotless: absent ⇒ `(false, unchanged)`, else
remove the root key and save. -/
def Database.deleteD (db : Database) (key : String) : Bool × Database :=
  if hasDot key then
    if truthy (assocLookup db.data (mainKeyOf key)) then
      let r := lodashUnset ((assocLookup db.data (mainKeyOf key)).getD Value.null)
          (nestedOf key)
      let db' := { db with data := assocInsert db.data (mainKeyOf key) r.1 }
      (r.2, if db.autoSave then db'.save else db')
    else (false, db)
  else
    match assocLookup db.data key with
    | some _ =>
      let db' := { db with data := assocErase db.data key }
      (true, if db.autoSave then db'.save else db')
    | none => (false, db)

/-- `typeof currentValue === "number" ? currentValue : 0`. -/
def coerceNum : Value → Int
  | Value.num n => n
  | _ => 0

/-- `add(key, amount)`: read with default 0, coerce non-numbers to 0,
store and return the sum. -/
def Database.addD (db : Database) (key : String) (amount : Int) : Int × Database :=
  let n := coerceNum (db.getD key (Value.num 0)) + amount
  (n, db.setD key (Value.num n))

/-- `subtract(key, amount) = add(key, -amount)`. -/
def Database.subtractD (db : Database) (key : String) (amount : Int) : Int × Database :=
  db.addD key (-amount)

/-- `push(key, value)`: read with default `[]`; a non-array faults
(`throw`) before any mutation, so the state is returned unchanged with
`none`; otherwise append and store through `set`. -/
def Database.pushD (db : Database) (key : String) (v : Value) :
    Option (List Value) × Database :=
  match db.getD key (Value.arr []) with
  | Value.arr xs => (some (xs ++ [v]), db.setD key (Value.arr (xs ++ [v])))
  | _ => (none, db)

/-- `pull(key, callback)`: read with default `[]`; a non-array faults
before any mutation; otherwise keep exactly the elements on which the
callback is false and store through `set`. -/
def Database.pullD (db : Database) (key : String) (p : Value → Bool) :
    Option (List Value) × Database :=
  match db.getD key (Value.arr []) with
  | Value.arr xs =>
    let ys := xs.filter (fun x => !(p x))
    (some ys, db.setD key (Value.arr ys))
  | _ => (none, db)

/-- `clear()`: reset the document, saving when `autoSave` is on. -/
def Database.clearD (db : Database) : Database :=
  let db' := { db with data := [] }
  if db.autoSave then db'.save else db'

/-- `all()`: the root-key/value pairs in order. -/
def Database.allD (db : Database) : List (String × Value) := db.data

/-- A mutating public operation, for stating the auto-persist
invariant over arbitrary call sequences. -/
inductive Op where
  | set : String → Value → Op
  | del : String → Op
  | add : String → Int → Op
  | sub : String → Int → Op
  | push : String → Value → Op
  | pull : String → (Value → Bool) → Op
  | clear : Op

/-- State transition of one mutating operation (return values
discarded). -/
def Database.applyOp (db : Database) : Op → Database
  | Op.set k v => db.setD k v
  | Op.del k => (db.deleteD k).2
  | Op.add k n => (db.addD k n).2
  | Op.sub k n => (db.subtractD k n).2
  | Op.push k v => (db.pushD k v).2
  | Op.pull k p => (db.pullD k p).2
  | Op.clear => db.clearD

/-- A database constructed with default options against a missing
file: empty document, `autoSave` on. -/
def dbEmpty : Database := Database.create {} FileState.missing

/-- Document `a: (b: 1)`, built through a nested set. -/
def dbAB : Database := dbEmpty.setD "a.b" (Value.num 1)

/-- Document `s: 7` — a scalar where push/pull expect an array. -/
def dbScalar : Database := dbEmpty.setD "s" (Value.num 7)

/-- Document `a: 5` — a truthy non-container root key. -/
def dbRoot5 : Database := dbEmpty.setD "a" (Value.num 5)

/-- Document `arr: (1, 2, 3, 4)`. -/
def dbArr4 : Database :=
  dbEmpty.setD "arr" (Value.arr [Value.num 1, Value.num 2, Value.num 3, Value.num 4])

/-- Document `z: 0` — a falsy stored root value. -/
def dbZero : Database := dbEmpty.setD "z" (Value.num 0)

/-- The predicate of the pull example: true on even numbers. -/
def isEvenV : Value → Bool
  | Value.num m => m % 2 == 0
  | _ => false

/-! ## Helper lemmas -/

theorem assocLookup_insert (d : List (String × Value)) (k : String) (v : Value) :
    assocLookup (assocInsert d k v) k = some v := by
  induction d with
  | nil => simp [assocInsert, assocLookup]
  | cons hd tl ih =>
    obtain ⟨k', v'⟩ := hd
    by_cases h : k' = k
    · subst h
      simp [assocInsert, assocLookup]
    · simp [assocInsert, assocLookup, h, ih]

/-- A dotless `set` followed by a `get` of the same key returns the
value just written, whatever the prior state and `autoSave` mode. -/
theorem set_get_plain (db : Database) (k : String) (v : Value)
    (h : hasDot k = false) :
    (db.setD k v).getD k Value.null = v := by
  unfold Database.setD Database.getD Database.save
  cases hA : db.autoSave <;> simp [h, assocLookup_insert]

/-! ## Claims -/

/-- C1 counterexample: after `set("arr", [1,2,3])`, the call
`get("arr[1]")` returns the default `null`, not `2` — the dotless key
`"arr[1]"` is looked up literally at the root, its bracket suffix is
never interpreted. -/
theorem claim1_counterexample :
    (dbEmpty.setD "arr" (Value.arr [Value.num 1, Value.num 2, Value.num 3])).getD
      "arr[1]" Value.null = Value.null
    ∧ Value.null ≠ Value.num 2 :=
  ⟨rfl, fun h => Value.noConfusion h⟩

/-- C1 amended: a bracket index suffix on the root segment of a
dotless path is not interpreted — `get("arr[1]")` after
`set("arr", [1,2,3])` returns the default `null`; bracket indices are
honoured only in the nested segments of a dotted path, e.g. after
`set("a.b", [1,2,3])` the call `get("a.b[1]")` returns `2`. -/
theorem claim1_theorem :
    (dbEmpty.setD "arr" (Value.arr [Value.num 1, Value.num 2, Value.num 3])).getD
      "arr[1]" Value.null = Value.null
    ∧ (dbEmpty.setD "a.b" (Value.arr [Value.num 1, Value.num 2, Value.num 3])).getD
      "a.b[1]" Value.null = Value.num 2 :=
  ⟨rfl, rfl⟩

/-- C2: the `DatabaseOptions` interface carries only `filePath` and
`autoSave` — there is no cache flag, and no operation ever re-reads
the file: `get` depends only on the in-memory document (first
conjunct).  Concretely, with `autoSave: false` over an empty file,
`set("a", 1)` then `get("a")` returns `1` straight from memory while
the file is still empty — whereas a read-through (uncached) mode would
have re-read the empty file and returned `null`. -/
theorem claim2_theorem :
    (∀ (d : Doc) (a a' : Bool) (f f' : FileState) (key : String) (x : Value),
      Database.getD ⟨d, a, f⟩ key x = Database.getD ⟨d, a', f'⟩ key x)
    ∧ ((Database.create { autoSave := some false } FileState.empty).setD
        "a" (Value.num 1)).getD "a" Value.null = Value.num 1
    ∧ ((Database.create { autoSave := some false } FileState.empty).setD
        "a" (Value.num 1)).file = FileState.empty :=
  ⟨fun _ _ _ _ _ _ _ => rfl, rfl, rfl⟩

/-- C3 counterexample: constructing against an existing zero-length
file does not write anything — the file stays zero-length, which is
not an encoding of the empty document (`decode` is never even
attempted on an empty buffer, and `save()` is not called on that
path). -/
theorem claim3_counterexample :
    (Database.create {} FileState.empty).file = FileState.empty
    ∧ FileState.empty ≠ FileState.stored [] :=
  ⟨rfl, fun h => FileState.noConfusion h⟩

/-- C3 amended: construction never raises and the document starts
empty in all three degenerate cases, but the self-heal write happens
only for a missing or corrupt file; an existing empty file is left
untouched (still zero bytes) rather than being overwritten with an
encoding of the empty document. -/
theorem claim3_theorem :
    ∀ (o : DatabaseOptions),
      (Database.create o FileState.missing).data = []
      ∧ (Database.create o FileState.missing).file = FileState.stored []
      ∧ (Database.create o FileState.corrupt).data = []
      ∧ (Database.create o FileState.corrupt).file = FileState.stored []
      ∧ (Database.create o FileState.empty).data = []
      ∧ (Database.create o FileState.empty).file = FileState.empty :=
  fun _ => ⟨rfl, rfl, rfl, rfl, rfl, rfl⟩

/-- C6: `set(k, v)` followed by `get(k)` returns `v` for every
database, every dotless key and every value; and on a fresh database
the nested round trip holds: after `set("a.b.c", 5)`, `get("a.b.c")`
is `5`, `get("a")` is the mapping `b ↦ (c ↦ 5)` and `get("a.b")` is
the mapping `c ↦ 5`. -/
theorem claim6_theorem :
    (∀ (db : Database) (k : String) (v : Value), hasDot k = false →
      (db.setD k v).getD k Value.null = v)
    ∧ (dbEmpty.setD "a.b.c" (Value.num 5)).getD "a.b.c" Value.null = Value.num 5
    ∧ (dbEmpty.setD "a.b.c" (Value.num 5)).getD "a" Value.null
        = Value.obj [("b", Value.obj [("c", Value.num 5)])]
    ∧ (dbEmpty.setD "a.b.c" (Value.num 5)).getD "a.b" Value.null
        = Value.obj [("c", Value.num 5)] :=
  ⟨set_get_plain, rfl, rfl, rfl⟩

/-- C6 witness: the dotless round trip at a concrete instance. -/
theorem claim6_witness :
    (dbEmpty.setD "x" (Value.str "hello")).getD "x" Value.null = Value.str "hello" :=
  claim6_theorem.1 dbEmpty "x" (Value.str "hello") rfl

/-- C4 counterexample: on the document `a: (b: 1)`, the call
`delete("a.c")` returns `true` although nothing was removed — the
document is unchanged. -/
theorem claim4_counterexample :
    (dbAB.deleteD "a.c").1 = true ∧ (dbAB.deleteD "a.c").2.data = dbAB.data :=
  ⟨rfl, rfl⟩

/-- C4 amended: `delete` of a dotless key returns `true` exactly when
the key was present (removing it), and returns `false` leaving the
state untouched when absent; `delete` of a dotted key returns `false`
without mutating when the root key is absent or falsy; but for a
dotted key under a truthy root the returned boolean is only
`lodash.unset`'s report, which can be `true` with nothing removed —
`delete("a.c")` on `a: (b: 1)` returns `true` and leaves the document
unchanged — so `true` does not imply that something was removed. -/
theorem claim4_theorem :
    (∀ (db : Database) (k : String), hasDot k = false →
      assocLookup db.data k = none → db.deleteD k = (false, db))
    ∧ (∀ (db : Database) (k : String) (v : Value), hasDot k = false →
      assocLookup db.data k = some v →
        (db.deleteD k).1 = true ∧ (db.deleteD k).2.data = assocErase db.data k)
    ∧ (∀ (db : Database) (k : String), hasDot k = true →
      truthy (assocLookup db.data (mainKeyOf k)) = false →
        db.deleteD k = (false, db))
    ∧ (dbAB.deleteD "a.c").1 = true ∧ (dbAB.deleteD "a.c").2.data = dbAB.data := by
  refine ⟨?_, ?_, ?_, rfl, rfl⟩
  · intro db k h hnone
    unfold Database.deleteD
    simp [h, hnone]
  · intro db k v h hsome
    unfold Database.deleteD
    simp only [h, hsome, Bool.false_eq_true, if_false]
    cases hA : db.autoSave <;> simp [hA, Database.save]
  · intro db k h hf
    unfold Database.deleteD
    simp [h, hf]

/-- C4 witness: the amended characterization at concrete inputs — a
missing dotless key reports `false` and changes nothing, and a present
dotless key reports `true`. -/
theorem claim4_witness :
    dbEmpty.deleteD "x" = (false, dbEmpty)
    ∧ ((dbEmpty.setD "y" (Value.num 1)).deleteD "y").1 = true :=
  ⟨claim4_theorem.1 dbEmpty "x" rfl rfl,
   (claim4_theorem.2.1 (dbEmpty.setD "y" (Value.num 1)) "y" (Value.num 1) rfl rfl).1⟩

/-- C5: when the value read for `push`/`pull` (default `[]`) is not an
array, both operations fault and hand back the database unchanged;
when it is the empty array — in particular when the key is absent and
the default applies — `push` succeeds with the one-element array and
`pull` succeeds with the empty array, storing through `set`. -/
theorem claim5_theorem (db : Database) (key : String) (v : Value)
    (p : Value → Bool) (w : Value)
    (hw : db.getD key (Value.arr []) = w) :
    ((∀ xs, w ≠ Value.arr xs) →
      db.pushD key v = (none, db) ∧ db.pullD key p = (none, db))
    ∧ (w = Value.arr [] →
      db.pushD key v = (some [v], db.setD key (Value.arr [v]))
      ∧ db.pullD key p = (some [], db.setD key (Value.arr []))) := by
  constructor
  · intro hnot
    unfold Database.pushD Database.pullD
    rw [hw]
    cases w <;> first
      | exact absurd rfl (hnot _)
      | exact ⟨rfl, rfl⟩
  · intro he
    subst he
    unfold Database.pushD Database.pullD
    rw [hw]
    exact ⟨rfl, rfl⟩

/-- C5 witness: on `s: 7` both `push("s", 1)` and `pull("s", ·)`
fault with the state unchanged; on a fresh database `push("q", "x")`
yields `["x"]`. -/
theorem claim5_witness :
    (dbScalar.pushD "s" (Value.num 1) = (none, dbScalar)
      ∧ dbScalar.pullD "s" isEvenV = (none, dbScalar))
    ∧ dbEmpty.pushD "q" (Value.str "x")
        = (some [Value.str "x"], dbEmpty.setD "q" (Value.arr [Value.str "x"])) :=
  ⟨(claim5_theorem dbScalar "s" (Value.num 1) isEvenV (Value.num 7) rfl).1
     (fun _ h => Value.noConfusion h),
   ((claim5_theorem dbEmpty "q" (Value.str "x") isEvenV (Value.arr []) rfl).2 rfl).1⟩

/-- C7 counterexample: with `a: 5` stored (a truthy non-container
root), `add("a.b", 3)` returns `3` but stores nothing — the document
is unchanged and a subsequent `get("a.b")` returns `null`, not `3`
(the underlying `lodash.set` is a silent no-op on a primitive). -/
theorem claim7_counterexample :
    (dbRoot5.addD "a.b" 3).1 = 3
    ∧ (dbRoot5.addD "a.b" 3).2.data = dbRoot5.data
    ∧ (dbRoot5.addD "a.b" 3).2.getD "a.b" Value.null = Value.null
    ∧ Value.null ≠ Value.num 3 :=
  ⟨rfl, rfl, rfl, fun h => Value.noConfusion h⟩

/-- C7 amended: `add`/`subtract` never fail — `add` always returns the
prior value (read with default 0 and coerced to 0 when non-numeric)
plus the amount and passes the sum to `set`, and `subtract` is `add`
of the negation; for a dotless key the sum is genuinely stored (a
subsequent `get` returns it), and on a fresh database `add("c", 5)`
returns `5` with `get("c") = 5` — but for a dotted key whose root
holds a truthy non-container the underlying `set` is a silent no-op,
so nothing is stored (see the counterexample). -/
theorem claim7_theorem :
    (∀ (db : Database) (k : String) (a : Int),
      db.addD k a = (coerceNum (db.getD k (Value.num 0)) + a,
        db.setD k (Value.num (coerceNum (db.getD k (Value.num 0)) + a))))
    ∧ (∀ (db : Database) (k : String) (a : Int), db.subtractD k a = db.addD k (-a))
    ∧ (∀ (db : Database) (k : String) (a : Int), hasDot k = false →
      (db.addD k a).2.getD k Value.null = Value.num ((db.addD k a).1))
    ∧ (dbEmpty.addD "c" 5).1 = 5
    ∧ (dbEmpty.addD "c" 5).2.getD "c" Value.null = Value.num 5 := by
  refine ⟨fun _ _ _ => rfl, fun _ _ _ => rfl, ?_, rfl, rfl⟩
  intro db k a h
  exact set_get_plain db k (Value.num ((db.addD k a).1)) h

/-- C7 witness: the dotless storage conjunct at a concrete instance. -/
theorem claim7_witness :
    (dbEmpty.addD "k" 2).2.getD "k" Value.null = Value.num ((dbEmpty.addD "k" 2).1) :=
  claim7_theorem.2.2.1 dbEmpty "k" 2 rfl

/-- C8: when the value read for `pull` is the array `xs`, the result
is exactly `xs` with the elements satisfying the callback removed —
the kept elements are a sublist of `xs` (original relative order) on
which the callback is false — the result is returned and handed to
`set`, and for a dotless key a subsequent `get` reads it back. -/
theorem claim8_theorem (db : Database) (key : String) (p : Value → Bool)
    (xs : List Value) (h : db.getD key (Value.arr []) = Value.arr xs) :
    db.pullD key p = (some (xs.filter fun x => !(p x)),
      db.setD key (Value.arr (xs.filter fun x => !(p x))))
    ∧ (xs.filter fun x => !(p x)).Sublist xs
    ∧ (∀ x ∈ xs.filter fun x => !(p x), p x = false)
    ∧ (hasDot key = false →
      (db.pullD key p).2.getD key Value.null
        = Value.arr (xs.filter fun x => !(p x))) := by
  have hp : db.pullD key p = (some (xs.filter fun x => !(p x)),
      db.setD key (Value.arr (xs.filter fun x => !(p x)))) := by
    unfold Database.pullD
    rw [h]
  refine ⟨hp, List.filter_sublist xs, ?_, ?_⟩
  · intro x hx
    have hmem := List.of_mem_filter hx
    simpa using hmem
  · intro hk
    rw [hp]
    exact set_get_plain db key (Value.arr (xs.filter fun x => !(p x))) hk

/-- C8 witness: `set("arr", [1,2,3,4])` then `pull` of the even
numbers yields `[1, 3]`, stored and read back. -/
theorem claim8_witness :
    dbArr4.pullD "arr" isEvenV = (some [Value.num 1, Value.num 3],
      dbArr4.setD "arr" (Value.arr [Value.num 1, Value.num 3]))
    ∧ (dbArr4.pullD "arr" isEvenV).2.getD "arr" Value.null
        = Value.arr [Value.num 1, Value.num 3] :=
  ⟨(claim8_theorem dbArr4 "arr" isEvenV
      [Value.num 1, Value.num 2, Value.num 3, Value.num 4] rfl).1,
   (claim8_theorem dbArr4 "arr" isEvenV
      [Value.num 1, Value.num 2, Value.num 3, Value.num 4] rfl).2.2.2 rfl⟩

/-- With `autoSave` on, `set` always ends in a `save`, so the file
holds the encoding of the new document. -/
theorem setD_saves (db : Database) (k : String) (v : Value)
    (h : db.autoSave = true) :
    (db.setD k v).file = FileState.stored (db.setD k v).data := by
  simp [Database.setD, Database.save, h]

/-- No mutating operation touches the `autoSave` flag. -/
theorem applyOp_autoSave (db : Database) (op : Op) :
    (db.applyOp op).autoSave = db.autoSave := by
  cases op <;>
    simp only [Database.applyOp, Database.setD, Database.deleteD, Database.addD,
      Database.subtractD, Database.pushD, Database.pullD, Database.clearD,
      Database.save] <;>
    (repeat' split) <;> rfl

/-- `autoSave` is invariant along any call sequence. -/
theorem foldl_autoSave (ops : List Op) (db : Database) :
    (ops.foldl Database.applyOp db).autoSave = db.autoSave := by
  induction ops generalizing db with
  | nil => rfl
  | cons op rest ih => rw [List.foldl_cons, ih, applyOp_autoSave]

/-- With `autoSave` on, every mutating operation either ends in a
`save` (file = encoding of the new document) or leaves the state
entirely unchanged. -/
theorem applyOp_saved (db : Database) (op : Op) (h : db.autoSave = true) :
    (db.applyOp op).file = FileState.stored (db.applyOp op).data
    ∨ db.applyOp op = db := by
  cases op with
  | set k v => exact Or.inl (setD_saves db k v h)
  | del k =>
    simp only [Database.applyOp, Database.deleteD]
    split
    · split
      · exact Or.inl (by simp [Database.save, h])
      · exact Or.inr rfl
    · split
      · exact Or.inl (by simp [Database.save, h])
      · exact Or.inr rfl
  | add k n => exact Or.inl (setD_saves db k _ h)
  | sub k n => exact Or.inl (setD_saves db k _ h)
  | push k v =>
    simp only [Database.applyOp, Database.pushD]
    split
    · exact Or.inl (setD_saves db k _ h)
    · exact Or.inr rfl
  | pull k p =>
    simp only [Database.applyOp, Database.pullD]
    split
    · exact Or.inl (setD_saves db k _ h)
    · exact Or.inr rfl
  | clear => exact Or.inl (by simp [Database.applyOp, Database.clearD, Database.save, h])

/-- C9: with `autoSave` on, after any sequence of mutating operations,
an operation that changes the document leaves the file holding the
encoding of the new in-memory document. -/
theorem claim9_theorem (db : Database) (ops : List Op) (op : Op)
    (h : db.autoSave = true)
    (hchange : ((ops.foldl Database.applyOp db).applyOp op).data
      ≠ (ops.foldl Database.applyOp db).data) :
    ((ops.foldl Database.applyOp db).applyOp op).file
      = FileState.stored ((ops.foldl Database.applyOp db).applyOp op).data := by
  have hA : (ops.foldl Database.applyOp db).autoSave = true := by
    rw [foldl_autoSave]
    exact h
  rcases applyOp_saved (ops.foldl Database.applyOp db) op hA with hs | hu
  · exact hs
  · exact absurd (congrArg Database.data hu) hchange

/-- C9 witness: on the fresh default database, the first `set`
persists the one-entry document. -/
theorem claim9_witness :
    ((([] : List Op).foldl Database.applyOp dbEmpty).applyOp
      (Op.set "x" (Value.num 1))).file
      = FileState.stored ((([] : List Op).foldl Database.applyOp dbEmpty).applyOp
        (Op.set "x" (Value.num 1))).data :=
  claim9_theorem dbEmpty [] (Op.set "x" (Value.num 1)) rfl
    (fun hEq => List.noConfusion hEq)

/-- C10: for a dotted path whose root key holds a falsy stored value,
the root is treated exactly like an absent one: `get` returns the
default, `has` returns false, `delete` returns false leaving the state
unchanged, and `set` discards the falsy value, building the new root
value from a fresh empty mapping. -/
theorem claim10_theorem (db : Database) (key : String) (w : Value)
    (dflt v : Value) (hk : hasDot key = true)
    (hw : assocLookup db.data (mainKeyOf key) = some w)
    (hfalsy : truthy (some w) = false) :
    db.getD key dflt = dflt
    ∧ db.hasD key = false
    ∧ db.deleteD key = (false, db)
    ∧ assocLookup (db.setD key v).data (mainKeyOf key)
        = some (lodashSet (Value.obj []) (nestedOf key) v) := by
  have ht : truthy (assocLookup db.data (mainKeyOf key)) = false := by
    rw [hw]
    exact hfalsy
  refine ⟨?_, ?_, ?_, ?_⟩
  · unfold Database.getD
    simp [hk, ht]
  · unfold Database.hasD
    simp [hk, ht]
  · unfold Database.deleteD
    simp [hk, ht]
  · unfold Database.setD
    cases hA : db.autoSave <;>
      simp [hk, ht, hA, Database.save, assocLookup_insert]

/-- C10 witness: with `z: 0` stored, the dotted path `"z.k"` behaves
as if `z` were absent for all four operations. -/
theorem claim10_witness :
    dbZero.getD "z.k" (Value.str "D") = Value.str "D"
    ∧ dbZero.hasD "z.k" = false
    ∧ dbZero.deleteD "z.k" = (false, dbZero)
    ∧ assocLookup (dbZero.setD "z.k" (Value.num 9)).data (mainKeyOf "z.k")
        = some (lodashSet (Value.obj []) (nestedOf "z.k") (Value.num 9)) :=
  claim10_theorem dbZero "z.k" (Value.num 0) (Value.str "D") (Value.num 9) rfl rfl rfl

end SimpleBDB
